import Mathlib

/-!
Verification of the dpdk-itch5-feedhandler core against its specification.

The development shallowly embeds three subsystems of the source:
  * the MoldUDP64 session decoder (`src/include/moldudp64/session.hpp`,
    `header.hpp`) — `hft.moldudp64`;
  * the ITCH 5.0 message parser (`src/include/itch5/parser.hpp`,
    `messages.hpp`) — `hft.itch5`;
  * the SPSC ring buffer (`src/include/spsc/ring_buffer.hpp`) — `hft.spsc`.

Byte buffers are `List Nat` (each entry one byte value).  Machine
arithmetic on `uint64_t` fields is modelled with explicit `% 2^64`
where the C++ arithmetic can wrap.  Callback dispatch is modelled as an
explicit event list (the configuration in which the gap and message
callbacks are installed, as the packet handler installs them).
-/

namespace hft

namespace endian

/-- `read_be16` from `common/endian.hpp`: two bytes, big-endian.
Call sites guard the length, so lists shorter than the width read as 0. -/
def read_be16 : List Nat → Nat
  | b0 :: b1 :: _ => b0 * 2^8 + b1
  | _ => 0

/-- `read_be32` from `common/endian.hpp`: four bytes, big-endian. -/
def read_be32 : List Nat → Nat
  | b0 :: b1 :: b2 :: b3 :: _ => b0 * 2^24 + b1 * 2^16 + b2 * 2^8 + b3
  | _ => 0

/-- `read_be48` from `common/endian.hpp`: six bytes, big-endian
(ITCH timestamps). -/
def read_be48 : List Nat → Nat
  | b0 :: b1 :: b2 :: b3 :: b4 :: b5 :: _ =>
      b0 * 2^40 + b1 * 2^32 + b2 * 2^24 + b3 * 2^16 + b4 * 2^8 + b5
  | _ => 0

/-- `read_be64` from `common/endian.hpp`: eight bytes, big-endian. -/
def read_be64 : List Nat → Nat
  | b0 :: b1 :: b2 :: b3 :: b4 :: b5 :: b6 :: b7 :: _ =>
      b0 * 2^56 + b1 * 2^48 + b2 * 2^40 + b3 * 2^32 +
      b4 * 2^24 + b5 * 2^16 + b6 * 2^8 + b7
  | _ => 0

/-- Big-endian serialization of a 16-bit value (the wire encoding the
reader inverts; used to build test packets, like `hton16` in the tests). -/
def be16_bytes (n : Nat) : List Nat :=
  [n / 2^8 % 2^8, n % 2^8]

/-- Big-endian serialization of a 32-bit value. -/
def be32_bytes (n : Nat) : List Nat :=
  [n / 2^24 % 2^8, n / 2^16 % 2^8, n / 2^8 % 2^8, n % 2^8]

/-- Big-endian serialization of a 48-bit value. -/
def be48_bytes (n : Nat) : List Nat :=
  [n / 2^40 % 2^8, n / 2^32 % 2^8, n / 2^24 % 2^8,
   n / 2^16 % 2^8, n / 2^8 % 2^8, n % 2^8]

/-- Big-endian serialization of a 64-bit value. -/
def be64_bytes (n : Nat) : List Nat :=
  [n / 2^56 % 2^8, n / 2^48 % 2^8, n / 2^40 % 2^8, n / 2^32 % 2^8,
   n / 2^24 % 2^8, n / 2^16 % 2^8, n / 2^8 % 2^8, n % 2^8]

theorem read_be16_bytes (n : Nat) (r : List Nat) (h : n < 2^16) :
    read_be16 (be16_bytes n ++ r) = n := by
  simp only [be16_bytes, List.cons_append, List.nil_append, read_be16]
  omega

theorem read_be32_bytes (n : Nat) (r : List Nat) (h : n < 2^32) :
    read_be32 (be32_bytes n ++ r) = n := by
  simp only [be32_bytes, List.cons_append, List.nil_append, read_be32]
  omega

theorem read_be48_bytes (n : Nat) (r : List Nat) (h : n < 2^48) :
    read_be48 (be48_bytes n ++ r) = n := by
  simp only [be48_bytes, List.cons_append, List.nil_append, read_be48]
  omega

theorem read_be64_bytes (n : Nat) (r : List Nat) (h : n < 2^64) :
    read_be64 (be64_bytes n ++ r) = n := by
  simp only [be64_bytes, List.cons_append, List.nil_append, read_be64]
  omega

theorem be16_bytes_length (n : Nat) : (be16_bytes n).length = 2 := rfl

theorem be64_bytes_length (n : Nat) : (be64_bytes n).length = 8 := rfl

end endian

namespace moldudp64

/-- `SessionState` from `moldudp64/session.hpp`. -/
inductive SessionState where
  | Unknown
  | Active
  | Stale
  | EndOfSession
  | Error
deriving DecidableEq, Repr

/-- `Gap` from `moldudp64/session.hpp` (`end` is a Lean keyword, hence
`end_` for the inclusive upper bound). -/
structure Gap where
  start : Nat
  end_ : Nat
  detected_at_ns : Nat
deriving DecidableEq, Repr

/-- `Header` from `moldudp64/header.hpp`: the parsed 20-byte MoldUDP64
header. -/
structure Header where
  session : List Nat
  sequence_number : Nat
  message_count : Nat
deriving DecidableEq, Repr

/-- `HEARTBEAT_SEQUENCE` from `moldudp64/header.hpp`. -/
def HEARTBEAT_SEQUENCE : Nat := 0

/-- `END_OF_SESSION` from `moldudp64/header.hpp` (`0xFFFFFFFFFFFFFFFF`). -/
def END_OF_SESSION : Nat := 2^64 - 1

/-- `HeaderParser::parse` from `moldudp64/header.hpp`: fails when the
buffer is shorter than the 20-byte header, otherwise reads the 10-byte
session id, the big-endian 64-bit sequence number at offset 10 and the
big-endian 16-bit message count at offset 18. -/
def HeaderParser.parse (data : List Nat) : Option Header :=
  if data.length < 20 then none
  else some
    { session := data.take 10
      sequence_number := endian.read_be64 (data.drop 10)
      message_count := endian.read_be16 (data.drop 18) }

/-- The mutable state of `Session` from `moldudp64/session.hpp`. -/
structure Session where
  session_id : List Nat
  expected_sequence : Nat
  state : SessionState
  pending_gaps : List Gap
  packets_received : Nat
  messages_received : Nat
  gaps_detected : Nat
  heartbeats_received : Nat
deriving DecidableEq, Repr

/-- A freshly constructed `Session` (constructor of
`moldudp64/session.hpp`): `expected_sequence = 1`, state `Unknown`,
empty gap list, all counters zero. -/
def Session.init : Session :=
  { session_id := List.replicate 10 0
    expected_sequence := 1
    state := SessionState.Unknown
    pending_gaps := []
    packets_received := 0
    messages_received := 0
    gaps_detected := 0
    heartbeats_received := 0 }

/-- Callback invocations performed by `Session::process_packet`: the gap
callback and the per-message callback, in invocation order. -/
inductive Event where
  | gap (g : Gap)
  | msg (payload : List Nat) (length : Nat) (seq : Nat)
deriving DecidableEq, Repr

/-- `Session::check_gap_fill` from `moldudp64/session.hpp`: walk the
pending gap list and, for each gap, erase it when `[start, end_]` covers
it, shrink it when the range touches one of its sides (erasing it when
it becomes empty), and keep it otherwise. -/
def check_gap_fill (start end_ : Nat) : List Gap → List Gap
  | [] => []
  | g :: rest =>
    if start ≤ g.start ∧ end_ ≥ g.end_ then
      check_gap_fill start end_ rest
    else if start ≤ g.start ∧ end_ ≥ g.start then
      let g' : Gap := { g with start := end_ + 1 }
      if g'.start > g'.end_ then check_gap_fill start end_ rest
      else g' :: check_gap_fill start end_ rest
    else if start ≤ g.end_ ∧ end_ ≥ g.end_ then
      let g' : Gap := { g with end_ := start - 1 }
      if g'.start > g'.end_ then check_gap_fill start end_ rest
      else g' :: check_gap_fill start end_ rest
    else g :: check_gap_fill start end_ rest

/-- The per-message dispatch loop of `Session::process_packet`
(lines 129‑153 of `session.hpp`), with the message callback installed:
iterate up to `count` blocks starting at `offset`, read the 2-byte
big-endian block length, stop as soon as the length prefix or the block
body extends past the packet end, and otherwise emit the message
callback event and continue with the next sequence number. -/
def dispatch (data : List Nat) (offset seq : Nat) : Nat → List Event
  | 0 => []
  | count + 1 =>
    if offset + 2 > data.length then []
    else if offset + 2 + endian.read_be16 (data.drop offset) >
        data.length then []
    else
      Event.msg ((data.drop (offset + 2)).take
          (endian.read_be16 (data.drop offset)))
        (endian.read_be16 (data.drop offset)) seq ::
        dispatch data (offset + 2 + endian.read_be16 (data.drop offset))
          (seq + 1) count

/-- The gap-classification step of `Session::process_packet`
(lines 104‑126 of `session.hpp`): `seq > expected` appends a gap
`[expected, seq − 1]`, bumps `gaps_detected`, moves to `Stale` and fires
the gap callback; `seq < expected` runs `check_gap_fill` over
`[seq, seq + count − 1]` (`uint64` arithmetic, hence the `% 2^64`);
`seq = expected` does nothing. -/
def gap_step (s : Session) (h : Header) : Session × List Event :=
  if s.expected_sequence < h.sequence_number then
    let gap : Gap :=
      { start := s.expected_sequence
        end_ := h.sequence_number - 1
        detected_at_ns := 0 }
    ({ s with
        pending_gaps := s.pending_gaps ++ [gap]
        gaps_detected := s.gaps_detected + 1
        state := SessionState.Stale }, [Event.gap gap])
  else if h.sequence_number < s.expected_sequence then
    ({ s with
        pending_gaps :=
          check_gap_fill h.sequence_number
            ((h.sequence_number + h.message_count - 1) % 2^64)
            s.pending_gaps }, [])
  else (s, [])

/-- The expected-sequence update of `Session::process_packet`
(lines 159‑163): `next_expected = seq + count` in `uint64` arithmetic,
adopted only when it exceeds the current value. -/
def update_expected (s : Session) (h : Header) : Session :=
  if s.expected_sequence < (h.sequence_number + h.message_count) % 2^64 then
    { s with expected_sequence :=
        (h.sequence_number + h.message_count) % 2^64 }
  else s

/-- The final check of `Session::process_packet` (lines 165‑168): a
`Stale` session with an empty pending gap list becomes `Active`. -/
def stale_check (s : Session) : Session :=
  if s.state = SessionState.Stale ∧ s.pending_gaps = [] then
    { s with state := SessionState.Active }
  else s

/-- Lines 93‑171 of `Session::process_packet`, after the session-id
handling: heartbeat (`seq = 0 ∧ count = 0`) and end-of-session
(`seq = 2^64 − 1`) recognition, then the gap classification, the block
dispatch loop starting at offset 20, the `messages_received` bump by
the number of dispatched messages, the expected-sequence update and
the `Stale`→`Active` check. -/
def process_body (s : Session) (header : Header) (data : List Nat) :
    Session × Bool × List Event :=
  if header.sequence_number = HEARTBEAT_SEQUENCE ∧
      header.message_count = 0 then
    ({ s with heartbeats_received := s.heartbeats_received + 1 },
     true, [])
  else if header.sequence_number = END_OF_SESSION then
    ({ s with state := SessionState.EndOfSession }, true, [])
  else
    let sg := gap_step s header
    let events := dispatch data 20 header.sequence_number
      header.message_count
    (stale_check (update_expected
      { sg.1 with
        messages_received := sg.1.messages_received + events.length }
      header), true, sg.2 ++ events)

/-- `Session::process_packet` from `moldudp64/session.hpp`, with both
callbacks installed; returns the new state, the boolean result, and the
callback events in invocation order.  Steps, in source order: header
parse (failure leaves the state untouched), `packets_received` bump,
session-id adoption (state `Unknown`) or byte-for-byte comparison
(mismatch sets `Error` and returns `false`), then `process_body`. -/
def process_packet (s : Session) (data : List Nat) :
    Session × Bool × List Event :=
  match HeaderParser.parse data with
  | none => (s, false, [])
  | some header =>
    let s := { s with packets_received := s.packets_received + 1 }
    if s.state = SessionState.Unknown then
      process_body
        { s with session_id := header.session
                 state := SessionState.Active } header data
    else if s.session_id ≠ header.session then
      ({ s with state := SessionState.Error }, false, [])
    else process_body s header data

/-- `Session::has_gaps` from `moldudp64/session.hpp`. -/
def Session.has_gaps (s : Session) : Bool := !s.pending_gaps.isEmpty

/-- Session states reachable from a fresh `Session` by any sequence of
`process_packet` calls. -/
inductive Reachable : Session → Prop where
  | init : Reachable Session.init
  | step (s : Session) (data : List Nat) :
      Reachable s → Reachable (process_packet s data).1

/-- Wire serialization of the message blocks of a MoldUDP64 packet:
each block is a 2-byte big-endian length followed by the block body
(`moldudp64/header.hpp`, packet structure comment; the tests build
packets the same way). -/
def encode_blocks : List (List Nat) → List Nat
  | [] => []
  | b :: bs => endian.be16_bytes b.length ++ b ++ encode_blocks bs

/-- Wire serialization of a whole MoldUDP64 packet: 10-byte session id,
big-endian 64-bit sequence number, big-endian 16-bit count, then the
blocks. -/
def mkPacket (sid : List Nat) (seq cnt : Nat) (blocks : List (List Nat)) :
    List Nat :=
  sid ++ endian.be64_bytes seq ++ endian.be16_bytes cnt ++
    encode_blocks blocks

/-- The message callback events the dispatch loop produces for a run of
fully contained blocks starting at sequence number `seq`. -/
def dispatched : List (List Nat) → Nat → List Event
  | [], _ => []
  | b :: bs, seq => Event.msg b b.length seq :: dispatched bs (seq + 1)

theorem dispatched_length (blocks : List (List Nat)) (seq : Nat) :
    (dispatched blocks seq).length = blocks.length := by
  induction blocks generalizing seq with
  | nil => rfl
  | cons b bs ih => simp [dispatched, ih]

theorem mkPacket_length (sid : List Nat) (seq cnt : Nat)
    (blocks : List (List Nat)) (h10 : sid.length = 10) :
    (mkPacket sid seq cnt blocks).length =
      20 + (encode_blocks blocks).length := by
  simp [mkPacket, endian.be64_bytes, endian.be16_bytes, h10]
  omega

/-- Parsing a serialized packet recovers the header fields. -/
theorem parse_mkPacket (sid : List Nat) (seq cnt : Nat)
    (blocks : List (List Nat)) (h10 : sid.length = 10)
    (hseq : seq < 2^64) (hcnt : cnt < 2^16) :
    HeaderParser.parse (mkPacket sid seq cnt blocks) =
      some { session := sid, sequence_number := seq,
             message_count := cnt } := by
  have hlen := mkPacket_length sid seq cnt blocks h10
  have hdrop10 : (mkPacket sid seq cnt blocks).drop 10 =
      endian.be64_bytes seq ++
        (endian.be16_bytes cnt ++ encode_blocks blocks) := by
    rw [mkPacket, List.append_assoc, List.append_assoc, ← h10,
      List.drop_left]
  have hdrop18 : (mkPacket sid seq cnt blocks).drop 18 =
      endian.be16_bytes cnt ++ encode_blocks blocks := by
    have h8 : (18 : Nat) = 10 + 8 := by omega
    rw [h8, ← List.drop_drop, hdrop10,
      ← endian.be64_bytes_length seq, List.drop_left]
  have htake : (mkPacket sid seq cnt blocks).take 10 = sid := by
    rw [mkPacket, List.append_assoc, List.append_assoc, ← h10,
      List.take_left]
  rw [HeaderParser.parse, if_neg (by omega)]
  rw [htake, hdrop10, hdrop18, endian.read_be64_bytes seq _ hseq,
    endian.read_be16_bytes cnt _ hcnt]

/-- Running the dispatch loop over a buffer that carries `blocks`
serialized after a prefix, starting at the prefix end, with a declared
count of at least the number of blocks present, emits exactly the
message events for the present blocks. -/
theorem dispatch_encode (blocks : List (List Nat)) (pre : List Nat)
    (seq n : Nat) (hn : blocks.length ≤ n)
    (hb : ∀ b ∈ blocks, b.length < 2^16) :
    dispatch (pre ++ encode_blocks blocks) pre.length seq n =
      dispatched blocks seq := by
  induction blocks generalizing pre seq n with
  | nil =>
    cases n with
    | zero => rfl
    | succ m =>
      simp only [encode_blocks, List.append_nil, dispatch, dispatched]
      rw [if_pos (by omega)]
  | cons b bs ih =>
    obtain ⟨m, rfl⟩ : ∃ m, n = m + 1 := by
      cases n with
      | zero => simp at hn
      | succ m => exact ⟨m, rfl⟩
    have hblen : b.length < 2^16 := hb b (by simp)
    have hdata : pre ++ encode_blocks (b :: bs) =
        pre ++ (endian.be16_bytes b.length ++ (b ++ encode_blocks bs)) := by
      simp [encode_blocks]
    have hlen : (pre ++ encode_blocks (b :: bs)).length =
        pre.length + 2 + b.length + (encode_blocks bs).length := by
      simp [encode_blocks, endian.be16_bytes]
      omega
    have hdrop : (pre ++ encode_blocks (b :: bs)).drop pre.length =
        endian.be16_bytes b.length ++ (b ++ encode_blocks bs) := by
      rw [hdata, List.drop_left]
    have hdrop2 : (pre ++ encode_blocks (b :: bs)).drop (pre.length + 2) =
        b ++ encode_blocks bs := by
      rw [← List.drop_drop, hdrop,
        ← endian.be16_bytes_length b.length, List.drop_left]
    have hrest : dispatch (pre ++ encode_blocks (b :: bs))
        (pre.length + 2 + b.length) (seq + 1) m = dispatched bs (seq + 1) := by
      have hpre' : (pre ++ endian.be16_bytes b.length ++ b).length =
          pre.length + 2 + b.length := by
        simp [endian.be16_bytes]; omega
      have hdata' : pre ++ encode_blocks (b :: bs) =
          (pre ++ endian.be16_bytes b.length ++ b) ++ encode_blocks bs := by
        simp [encode_blocks]
      rw [← hpre', hdata']
      exact ih _ _ m (by simpa using Nat.le_of_succ_le_succ hn)
        (fun x hx => hb x (by simp [hx]))
    simp only [dispatch]
    rw [if_neg (by omega), hdrop, endian.read_be16_bytes _ _ hblen,
      if_neg (by omega), hdrop2, List.take_left, hrest]
    rfl

/-- The gap-list invariant the session decoder maintains on the states
it can actually reach: `Unknown` and `Active` states carry no pending
gaps, and a `Stale` state always carries at least one. -/
def GapInv (s : Session) : Prop :=
  ((s.state = SessionState.Unknown ∨ s.state = SessionState.Active) →
    s.pending_gaps = []) ∧
  (s.state = SessionState.Stale → s.pending_gaps ≠ [])

theorem process_packet_none (s : Session) (data : List Nat)
    (hparse : HeaderParser.parse data = none) :
    process_packet s data = (s, false, []) := by
  unfold process_packet
  rw [hparse]

/-- `process_packet` when the state is `Unknown`: the incoming session
id is adopted and the state moves to `Active` before the body runs. -/
theorem process_packet_adopt (s : Session) (data : List Nat)
    (header : Header) (hparse : HeaderParser.parse data = some header)
    (hstate : s.state = SessionState.Unknown) :
    process_packet s data =
      process_body
        { s with packets_received := s.packets_received + 1
                 session_id := header.session
                 state := SessionState.Active } header data := by
  unfold process_packet
  rw [hparse]
  dsimp only
  rw [if_pos (by simpa using hstate)]

/-- `process_packet` when the adopted session id matches. -/
theorem process_packet_match (s : Session) (data : List Nat)
    (header : Header) (hparse : HeaderParser.parse data = some header)
    (hstate : s.state ≠ SessionState.Unknown)
    (hsid : s.session_id = header.session) :
    process_packet s data =
      process_body { s with packets_received := s.packets_received + 1 }
        header data := by
  unfold process_packet
  rw [hparse]
  dsimp only
  rw [if_neg (by simpa using hstate), if_neg (by simpa using hsid)]

/-- `process_packet` on a session-id mismatch: state `Error`, failure,
nothing else touched. -/
theorem process_packet_mismatch (s : Session) (data : List Nat)
    (header : Header) (hparse : HeaderParser.parse data = some header)
    (hstate : s.state ≠ SessionState.Unknown)
    (hsid : s.session_id ≠ header.session) :
    process_packet s data =
      ({ s with packets_received := s.packets_received + 1
                state := SessionState.Error }, false, []) := by
  unfold process_packet
  rw [hparse]
  dsimp only
  rw [if_neg (by simpa using hstate), if_pos (by simpa using hsid)]

theorem process_body_heartbeat (s : Session) (header : Header)
    (data : List Nat) (hh : header.sequence_number = HEARTBEAT_SEQUENCE)
    (hc : header.message_count = 0) :
    process_body s header data =
      ({ s with heartbeats_received := s.heartbeats_received + 1 },
       true, []) := by
  unfold process_body
  rw [if_pos ⟨hh, hc⟩]

theorem process_body_eos (s : Session) (header : Header)
    (data : List Nat)
    (hnh : ¬(header.sequence_number = HEARTBEAT_SEQUENCE ∧
      header.message_count = 0))
    (he : header.sequence_number = END_OF_SESSION) :
    process_body s header data =
      ({ s with state := SessionState.EndOfSession }, true, []) := by
  unfold process_body
  rw [if_neg hnh, if_pos he]

/-- The data path of the body: gap step, dispatch, expected-sequence
update, stale check. -/
theorem process_body_data (s : Session) (header : Header)
    (data : List Nat)
    (hnh : ¬(header.sequence_number = HEARTBEAT_SEQUENCE ∧
      header.message_count = 0))
    (hne : header.sequence_number ≠ END_OF_SESSION) :
    process_body s header data =
      (stale_check (update_expected
        { (gap_step s header).1 with
          messages_received := (gap_step s header).1.messages_received +
            (dispatch data 20 header.sequence_number
              header.message_count).length } header),
       true,
       (gap_step s header).2 ++
         dispatch data 20 header.sequence_number header.message_count) := by
  unfold process_body
  rw [if_neg hnh, if_neg hne]

theorem check_gap_fill_nil (start end_ : Nat) :
    check_gap_fill start end_ [] = [] := rfl

theorem update_expected_state (s : Session) (h : Header) :
    (update_expected s h).state = s.state := by
  unfold update_expected
  split <;> rfl

theorem update_expected_gaps (s : Session) (h : Header) :
    (update_expected s h).pending_gaps = s.pending_gaps := by
  unfold update_expected
  split <;> rfl

theorem update_expected_expected (s : Session) (h : Header) :
    (update_expected s h).expected_sequence =
      if s.expected_sequence <
          (h.sequence_number + h.message_count) % 2^64 then
        (h.sequence_number + h.message_count) % 2^64
      else s.expected_sequence := by
  unfold update_expected
  split <;> simp_all

theorem stale_check_gaps (s : Session) :
    (stale_check s).pending_gaps = s.pending_gaps := by
  unfold stale_check
  split <;> rfl

theorem stale_check_expected (s : Session) :
    (stale_check s).expected_sequence = s.expected_sequence := by
  unfold stale_check
  split <;> rfl

/-- `stale_check` establishes the gap invariant as soon as the
`Unknown`/`Active` half holds for its input. -/
theorem gap_inv_stale_check (s : Session)
    (h1 : (s.state = SessionState.Unknown ∨
      s.state = SessionState.Active) → s.pending_gaps = []) :
    GapInv (stale_check s) := by
  unfold stale_check
  by_cases hc : s.state = SessionState.Stale ∧ s.pending_gaps = []
  · rw [if_pos hc]
    exact ⟨fun _ => hc.2, fun h => SessionState.noConfusion h⟩
  · rw [if_neg hc]
    refine ⟨h1, fun hs => ?_⟩
    intro hnil
    exact hc ⟨hs, hnil⟩

/-- `process_body` preserves the gap invariant. -/
theorem gap_inv_body (s : Session) (header : Header) (data : List Nat)
    (h : GapInv s) : GapInv (process_body s header data).1 := by
  by_cases hh : header.sequence_number = HEARTBEAT_SEQUENCE ∧
      header.message_count = 0
  · rw [process_body_heartbeat s header data hh.1 hh.2]
    exact h
  · by_cases he : header.sequence_number = END_OF_SESSION
    · rw [process_body_eos s header data hh he]
      refine ⟨fun hc => ?_, fun hc => SessionState.noConfusion hc⟩
      rcases hc with hc | hc <;> exact SessionState.noConfusion hc
    · rw [process_body_data s header data hh he]
      dsimp only
      apply gap_inv_stale_check
      rw [update_expected_state, update_expected_gaps]
      dsimp only
      unfold gap_step
      by_cases h1 : s.expected_sequence < header.sequence_number
      · rw [if_pos h1]
        intro hc
        rcases hc with hc | hc <;> exact SessionState.noConfusion hc
      · rw [if_neg h1]
        by_cases h2 : header.sequence_number < s.expected_sequence
        · rw [if_pos h2]
          intro hc
          dsimp only at hc ⊢
          rw [h.1 hc, check_gap_fill_nil]
        · rw [if_neg h2]
          exact h.1

/-- `process_packet` preserves the gap invariant. -/
theorem gap_inv_step (s : Session) (data : List Nat) (h : GapInv s) :
    GapInv (process_packet s data).1 := by
  cases hp : HeaderParser.parse data with
  | none => rw [process_packet_none s data hp]; exact h
  | some header =>
    by_cases hu : s.state = SessionState.Unknown
    · rw [process_packet_adopt s data header hp hu]
      apply gap_inv_body
      exact ⟨fun _ => h.1 (Or.inl hu), fun hc => SessionState.noConfusion hc⟩
    · by_cases hsid : s.session_id = header.session
      · rw [process_packet_match s data header hp hu hsid]
        exact gap_inv_body _ header data h
      · rw [process_packet_mismatch s data header hp hu hsid]
        refine ⟨fun hc => ?_, fun hc => SessionState.noConfusion hc⟩
        rcases hc with hc | hc <;> exact SessionState.noConfusion hc

/-- Every reachable session state satisfies the gap invariant. -/
theorem gap_inv_reachable (s : Session) (h : Reachable s) : GapInv s := by
  induction h with
  | init => exact ⟨fun _ => rfl, fun hc => SessionState.noConfusion hc⟩
  | step s' data _ ih => exact gap_inv_step s' data ih

/-- The gap step either leaves the state alone or moves to `Stale`
with a freshly appended (hence non-empty) pending list. -/
theorem gap_step_stale_gaps (s : Session) (h : Header) :
    ((gap_step s h).1.state = s.state ∧
      ((gap_step s h).1.pending_gaps = s.pending_gaps ∨
        (gap_step s h).1.pending_gaps =
          check_gap_fill h.sequence_number
            ((h.sequence_number + h.message_count - 1) % 2^64)
            s.pending_gaps)) ∨
    ((gap_step s h).1.state = SessionState.Stale ∧
      (gap_step s h).1.pending_gaps ≠ []) := by
  unfold gap_step
  by_cases h1 : s.expected_sequence < h.sequence_number
  · rw [if_pos h1]
    exact Or.inr ⟨rfl, by simp⟩
  · rw [if_neg h1]
    by_cases h2 : h.sequence_number < s.expected_sequence
    · rw [if_pos h2]
      exact Or.inl ⟨rfl, Or.inr rfl⟩
    · rw [if_neg h2]
      exact Or.inl ⟨rfl, Or.inl rfl⟩

theorem stale_check_of_state_ne (s : Session)
    (h : s.state ≠ SessionState.Stale) : stale_check s = s := by
  unfold stale_check
  rw [if_neg (fun hc => h hc.1)]

theorem stale_check_state_of (s : Session) (st : SessionState)
    (h1 : s.state = st) (h2 : st = SessionState.Stale → s.pending_gaps ≠ []) :
    (stale_check s).state = st := by
  unfold stale_check
  by_cases hc : s.state = SessionState.Stale ∧ s.pending_gaps = []
  · exact absurd hc.2 (h2 (h1 ▸ hc.1))
  · rw [if_neg hc]
    exact h1

/-- From an `EndOfSession` or `Error` state, the body of
`process_packet` can only land in `EndOfSession`, `Error` or `Stale`. -/
theorem process_body_state_terminal (s : Session) (header : Header)
    (data : List Nat)
    (h : s.state = SessionState.EndOfSession ∨
      s.state = SessionState.Error) :
    (process_body s header data).1.state = SessionState.EndOfSession ∨
    (process_body s header data).1.state = SessionState.Error ∨
    (process_body s header data).1.state = SessionState.Stale := by
  by_cases hh : header.sequence_number = HEARTBEAT_SEQUENCE ∧
      header.message_count = 0
  · rw [process_body_heartbeat s header data hh.1 hh.2]
    rcases h with h | h
    · exact Or.inl h
    · exact Or.inr (Or.inl h)
  · by_cases he : header.sequence_number = END_OF_SESSION
    · rw [process_body_eos s header data hh he]
      exact Or.inl rfl
    · rw [process_body_data s header data hh he]
      dsimp only
      rcases gap_step_stale_gaps s header with ⟨hg, _⟩ | ⟨hg, hgaps⟩
      · have hst : (stale_check (update_expected
            { (gap_step s header).1 with
              messages_received := (gap_step s header).1.messages_received +
                (dispatch data 20 header.sequence_number
                  header.message_count).length }
            header)).state = s.state := by
          apply stale_check_state_of
          · rw [update_expected_state]
            exact hg
          · intro hstale
            rcases h with h | h <;> rw [h] at hstale <;>
              exact SessionState.noConfusion hstale
        rcases h with h | h
        · exact Or.inl (hst.trans h)
        · exact Or.inr (Or.inl (hst.trans h))
      · have hst : (stale_check (update_expected
            { (gap_step s header).1 with
              messages_received := (gap_step s header).1.messages_received +
                (dispatch data 20 header.sequence_number
                  header.message_count).length }
            header)).state = SessionState.Stale := by
          apply stale_check_state_of
          · rw [update_expected_state]
            exact hg
          · intro _
            rw [update_expected_gaps]
            exact hgaps
        exact Or.inr (Or.inr hst)

/-- The dispatch loop over a serialized packet that carries `blocks`
and declares a count of at least the number of blocks present. -/
theorem dispatch_mkPacket (sid : List Nat) (seq N : Nat)
    (blocks : List (List Nat)) (seq' : Nat) (h10 : sid.length = 10)
    (hn : blocks.length ≤ N) (hb : ∀ b ∈ blocks, b.length < 2^16) :
    dispatch (mkPacket sid seq N blocks) 20 seq' N =
      dispatched blocks seq' := by
  have hpre : (sid ++ (endian.be64_bytes seq ++ endian.be16_bytes N)).length
      = 20 := by
    simp [h10, endian.be64_bytes, endian.be16_bytes]
  have hdata : mkPacket sid seq N blocks =
      (sid ++ (endian.be64_bytes seq ++ endian.be16_bytes N)) ++
        encode_blocks blocks := by
    simp [mkPacket]
  rw [hdata, ← hpre]
  exact dispatch_encode blocks _ seq' N hn hb

/-- The body on an in-order packet (`seq = expected_sequence`): no gap
activity, the present blocks are dispatched, and `expected_sequence`
advances by the declared count `N` (not by the number of blocks
actually present). -/
theorem process_body_in_order (s : Session) (sid : List Nat)
    (blocks : List (List Nat)) (seq N : Nat) (h10 : sid.length = 10)
    (hseq : s.expected_sequence = seq)
    (hN : N < 2^16) (hn : blocks.length ≤ N)
    (hb : ∀ b ∈ blocks, b.length < 2^16)
    (hpos : 0 < seq) (hNpos : 0 < N)
    (hbound : seq + N < 2^64) :
    process_body s
      { session := sid, sequence_number := seq,
        message_count := N }
      (mkPacket sid seq N blocks) =
      (stale_check { s with
         messages_received := s.messages_received + blocks.length
         expected_sequence := seq + N }, true,
       dispatched blocks seq) := by
  subst hseq
  have hnh : ¬((Header.mk sid s.expected_sequence N).sequence_number =
      HEARTBEAT_SEQUENCE ∧
      (Header.mk sid s.expected_sequence N).message_count = 0) := by
    intro hc
    rw [HEARTBEAT_SEQUENCE] at hc
    dsimp only at hc
    omega
  have hne : (Header.mk sid s.expected_sequence N).sequence_number ≠
      END_OF_SESSION := by
    rw [END_OF_SESSION]
    dsimp only
    omega
  rw [process_body_data _ _ _ hnh hne]
  have hgap : gap_step s
      { session := sid, sequence_number := s.expected_sequence,
        message_count := N } = (s, []) := by
    unfold gap_step
    rw [if_neg (by dsimp only; omega), if_neg (by dsimp only; omega)]
  rw [hgap]
  dsimp only
  rw [dispatch_mkPacket sid s.expected_sequence N blocks
    s.expected_sequence h10 hn hb, dispatched_length]
  unfold update_expected
  dsimp only
  have hmod : (s.expected_sequence + N) % 2^64 = s.expected_sequence + N :=
    Nat.mod_eq_of_lt hbound
  rw [hmod, if_pos (by omega), List.nil_append]

/-- The body on a gap packet (`seq > expected_sequence`): the gap
`[expected, seq − 1]` is appended and reported, the state becomes
`Stale`, the present blocks are dispatched, and `expected_sequence`
advances to `seq + N`. -/
theorem process_body_gap (s : Session) (sid : List Nat)
    (blocks : List (List Nat)) (seq N : Nat) (h10 : sid.length = 10)
    (hN : N < 2^16) (hn : blocks.length ≤ N)
    (hb : ∀ b ∈ blocks, b.length < 2^16)
    (hgt : s.expected_sequence < seq)
    (hlt : seq < 2^64 - 1) (hbound : seq + N < 2^64) :
    process_body s
      { session := sid, sequence_number := seq,
        message_count := N }
      (mkPacket sid seq N blocks) =
      ({ s with
         state := SessionState.Stale
         pending_gaps := s.pending_gaps ++
           [{ start := s.expected_sequence, end_ := seq - 1,
              detected_at_ns := 0 }]
         gaps_detected := s.gaps_detected + 1
         messages_received := s.messages_received + blocks.length
         expected_sequence := seq + N }, true,
       Event.gap { start := s.expected_sequence, end_ := seq - 1,
                   detected_at_ns := 0 } :: dispatched blocks seq) := by
  have hnh : ¬((Header.mk sid seq N).sequence_number =
      HEARTBEAT_SEQUENCE ∧ (Header.mk sid seq N).message_count = 0) := by
    intro hc
    rw [HEARTBEAT_SEQUENCE] at hc
    dsimp only at hc
    omega
  have hne : (Header.mk sid seq N).sequence_number ≠ END_OF_SESSION := by
    rw [END_OF_SESSION]
    dsimp only
    omega
  rw [process_body_data _ _ _ hnh hne]
  have hgap : gap_step s
      { session := sid, sequence_number := seq,
        message_count := N } =
      ({ s with
         state := SessionState.Stale
         pending_gaps := s.pending_gaps ++
           [{ start := s.expected_sequence, end_ := seq - 1,
              detected_at_ns := 0 }]
         gaps_detected := s.gaps_detected + 1 },
       [Event.gap { start := s.expected_sequence, end_ := seq - 1,
                    detected_at_ns := 0 }]) := by
    unfold gap_step
    rw [if_pos (by dsimp only; omega)]
  rw [hgap]
  dsimp only
  rw [dispatch_mkPacket sid seq N blocks seq h10 hn hb, dispatched_length]
  unfold update_expected
  dsimp only
  have hmod : (seq + N) % 2^64 = seq + N := Nat.mod_eq_of_lt hbound
  rw [hmod, if_pos (by omega)]
  unfold stale_check
  rw [if_neg (by intro hc; simp at hc), List.singleton_append]

/-- A 10-byte session id (`"AAAAAAAAAA"`). -/
def sidA : List Nat := List.replicate 10 65

/-- A different 10-byte session id (`"BBBBBBBBBB"`). -/
def sidB : List Nat := List.replicate 10 66

/-- The session after one in-order packet with id `sidA`: state
`Active`, `expected_sequence = 1`. -/
def sActive : Session :=
  (process_packet Session.init (mkPacket sidA 1 0 [])).1

/-- `sActive` after a packet with sequence 4: a gap `[1, 3]` is pending
and the state is `Stale`. -/
def sStale : Session :=
  (process_packet sActive (mkPacket sidA 4 0 [])).1

/-- `sStale` after an end-of-session packet: state `EndOfSession` with
the gap still pending. -/
def sStaleEOS : Session :=
  (process_packet sStale (mkPacket sidA END_OF_SESSION 0 [])).1

/-- `sActive` after an end-of-session packet: state `EndOfSession`,
no pending gaps. -/
def sEOS : Session :=
  (process_packet sActive (mkPacket sidA END_OF_SESSION 0 [])).1

end moldudp64

/-- `Side` from `common/types.hpp` (`'B'` = Buy, `'S'` = Sell). -/
inductive Side where
  | Buy
  | Sell
deriving DecidableEq, Repr

/-- Wire byte of a `Side` (the enum's underlying char value). -/
def Side.toByte : Side → Nat
  | Side.Buy => 66
  | Side.Sell => 83

/-- `MessageType` from `common/types.hpp`: the kind tag of a normalized
message. -/
inductive MessageType where
  | Unknown
  | AddOrder
  | AddOrderMPID
  | OrderExecuted
  | OrderExecutedWithPrice
  | OrderCancel
  | OrderDelete
  | OrderReplace
  | Trade
  | CrossTrade
  | BrokenTrade
  | SystemEvent
  | StockDirectory
  | StockTradingAction
  | RegSHO
  | MarketParticipantPosition
  | MWCB
  | IPOQuotingPeriod
  | LULD
  | OperationalHalt
deriving DecidableEq, Repr

/-- `NormalizedMessage` from `common/types.hpp`.  `price` is the
signed 64-bit internal fixed-point price (`Price = int64_t`), hence
`Int`; the stock symbol is its 8 raw bytes. -/
structure NormalizedMessage where
  type : MessageType := MessageType.Unknown
  timestamp : Nat := 0
  order_ref : Nat := 0
  stock : List Nat := List.replicate 8 0
  side : Side := Side.Buy
  price : Int := 0
  quantity : Nat := 0
  executed_quantity : Nat := 0
  new_order_ref : Nat := 0
deriving DecidableEq, Repr

namespace itch5

namespace msg_type

def SystemEvent : Nat := 83
def StockDirectory : Nat := 82
def StockTradingAction : Nat := 72
def RegSHORestriction : Nat := 89
def MarketParticipantPosition : Nat := 76
def MWCBDecline : Nat := 86
def MWCBStatus : Nat := 87
def IPOQuotingPeriod : Nat := 75
def LULDAuctionCollar : Nat := 74
def OperationalHalt : Nat := 104
def AddOrder : Nat := 65
def AddOrderMPID : Nat := 70
def OrderExecuted : Nat := 69
def OrderExecutedWithPrice : Nat := 67
def OrderCancel : Nat := 88
def OrderDelete : Nat := 68
def OrderReplace : Nat := 85
def Trade : Nat := 80
def CrossTrade : Nat := 81
def BrokenTrade : Nat := 66
def NOII : Nat := 73
def RPII : Nat := 78

end msg_type

/-- `get_message_size` from `itch5/messages.hpp`: first-byte code to
the exact struct size (the sizes the `static_assert`s pin down);
0 for codes not in the table. -/
def get_message_size (t : Nat) : Nat :=
  if t = msg_type.SystemEvent then 12
  else if t = msg_type.StockDirectory then 39
  else if t = msg_type.StockTradingAction then 25
  else if t = msg_type.RegSHORestriction then 20
  else if t = msg_type.MarketParticipantPosition then 26
  else if t = msg_type.MWCBDecline then 35
  else if t = msg_type.MWCBStatus then 12
  else if t = msg_type.IPOQuotingPeriod then 28
  else if t = msg_type.LULDAuctionCollar then 35
  else if t = msg_type.OperationalHalt then 21
  else if t = msg_type.AddOrder then 36
  else if t = msg_type.AddOrderMPID then 40
  else if t = msg_type.OrderExecuted then 31
  else if t = msg_type.OrderExecutedWithPrice then 36
  else if t = msg_type.OrderCancel then 23
  else if t = msg_type.OrderDelete then 19
  else if t = msg_type.OrderReplace then 35
  else if t = msg_type.Trade then 44
  else if t = msg_type.CrossTrade then 40
  else if t = msg_type.BrokenTrade then 19
  else if t = msg_type.NOII then 50
  else if t = msg_type.RPII then 20
  else 0

/-- `Parser::Stats` from `itch5/parser.hpp`. -/
structure Stats where
  total_messages : Nat := 0
  add_orders : Nat := 0
  order_executed : Nat := 0
  order_deleted : Nat := 0
  order_cancelled : Nat := 0
  order_replaced : Nat := 0
  trades : Nat := 0
  other_messages : Nat := 0
  unknown_messages : Nat := 0
deriving DecidableEq, Repr

def Stats.init : Stats := {}

/-- `Parser::convert_price` from `itch5/parser.hpp`: the 32-bit
unsigned wire price (4 implicit decimals) cast to the signed 64-bit
`Price` and multiplied by 100 (internal 6-decimal scale). -/
def convert_price (itch_price : Nat) : Int := (itch_price : Int) * 100

/-- The `NormalizedMessage` the packet handler's add-order callback
builds (`dpdk/packet_handler.hpp`, `setup_parser_callbacks`), reading
the packed `AddOrder` fields of `itch5/messages.hpp` from the message
bytes: timestamp at offset 5 (6 bytes), order reference at 11
(8 bytes), buy/sell byte at 19, shares at 20 (4 bytes), stock at 24
(8 bytes), price at 32 (4 bytes).  This also matches
`Parser::normalize_add_order`. -/
def normalize_add_order (data : List Nat) : NormalizedMessage :=
  { type := MessageType.AddOrder
    timestamp := endian.read_be48 (data.drop 5)
    order_ref := endian.read_be64 (data.drop 11)
    stock := (data.drop 24).take 8
    side := if data.getD 19 0 = 66 then Side.Buy else Side.Sell
    price := convert_price (endian.read_be32 (data.drop 32))
    quantity := endian.read_be32 (data.drop 20) }

/-- Record built by the order-executed callback of
`dpdk/packet_handler.hpp` (fields of `itch5/messages.hpp::OrderExecuted`:
order reference at 11, executed shares at 19). -/
def normalize_order_executed (data : List Nat) : NormalizedMessage :=
  { type := MessageType.OrderExecuted
    timestamp := endian.read_be48 (data.drop 5)
    order_ref := endian.read_be64 (data.drop 11)
    executed_quantity := endian.read_be32 (data.drop 19) }

/-- Record built by the order-delete callback of
`dpdk/packet_handler.hpp`. -/
def normalize_order_delete (data : List Nat) : NormalizedMessage :=
  { type := MessageType.OrderDelete
    timestamp := endian.read_be48 (data.drop 5)
    order_ref := endian.read_be64 (data.drop 11) }

/-- Record built by the order-cancel callback of
`dpdk/packet_handler.hpp` (cancelled shares at offset 19). -/
def normalize_order_cancel (data : List Nat) : NormalizedMessage :=
  { type := MessageType.OrderCancel
    timestamp := endian.read_be48 (data.drop 5)
    order_ref := endian.read_be64 (data.drop 11)
    quantity := endian.read_be32 (data.drop 19) }

/-- Record built by the order-replace callback of
`dpdk/packet_handler.hpp` (`itch5/messages.hpp::OrderReplace`: original
reference at 11, new reference at 19, shares at 27, price at 31). -/
def normalize_order_replace (data : List Nat) : NormalizedMessage :=
  { type := MessageType.OrderReplace
    timestamp := endian.read_be48 (data.drop 5)
    order_ref := endian.read_be64 (data.drop 11)
    new_order_ref := endian.read_be64 (data.drop 19)
    price := convert_price (endian.read_be32 (data.drop 31))
    quantity := endian.read_be32 (data.drop 27) }

/-- Record built by the trade callback of `dpdk/packet_handler.hpp`
(`itch5/messages.hpp::Trade`: same field layout as `AddOrder` up to
offset 35). -/
def normalize_trade (data : List Nat) : NormalizedMessage :=
  { type := MessageType.Trade
    timestamp := endian.read_be48 (data.drop 5)
    order_ref := endian.read_be64 (data.drop 11)
    stock := (data.drop 24).take 8
    side := if data.getD 19 0 = 66 then Side.Buy else Side.Sell
    price := convert_price (endian.read_be32 (data.drop 32))
    quantity := endian.read_be32 (data.drop 20) }

/-- The per-kind switch of `Parser::parse_message` (lines 63‑117 of
`itch5/parser.hpp`), paired with the record the packet handler's
callback for that kind pushes into the ring (`none` for the kinds the
packet handler installs no callback for).  The final `unknown_messages`
branch is the `default:` case of the switch. -/
def kind_step (t : Nat) (data : List Nat) (stats : Stats) :
    Stats × Option NormalizedMessage :=
  if t = msg_type.AddOrder then
    ({ stats with add_orders := stats.add_orders + 1 },
     some (normalize_add_order data))
  else if t = msg_type.AddOrderMPID then
    ({ stats with add_orders := stats.add_orders + 1 }, none)
  else if t = msg_type.OrderExecuted then
    ({ stats with order_executed := stats.order_executed + 1 },
     some (normalize_order_executed data))
  else if t = msg_type.OrderExecutedWithPrice then
    ({ stats with order_executed := stats.order_executed + 1 }, none)
  else if t = msg_type.OrderCancel then
    ({ stats with order_cancelled := stats.order_cancelled + 1 },
     some (normalize_order_cancel data))
  else if t = msg_type.OrderDelete then
    ({ stats with order_deleted := stats.order_deleted + 1 },
     some (normalize_order_delete data))
  else if t = msg_type.OrderReplace then
    ({ stats with order_replaced := stats.order_replaced + 1 },
     some (normalize_order_replace data))
  else if t = msg_type.Trade then
    ({ stats with trades := stats.trades + 1 },
     some (normalize_trade data))
  else if t = msg_type.SystemEvent ∨ t = msg_type.StockDirectory ∨
      t = msg_type.StockTradingAction ∨ t = msg_type.RegSHORestriction ∨
      t = msg_type.MarketParticipantPosition ∨ t = msg_type.MWCBDecline ∨
      t = msg_type.MWCBStatus ∨ t = msg_type.IPOQuotingPeriod ∨
      t = msg_type.LULDAuctionCollar ∨ t = msg_type.OperationalHalt ∨
      t = msg_type.CrossTrade ∨ t = msg_type.BrokenTrade ∨
      t = msg_type.NOII ∨ t = msg_type.RPII then
    ({ stats with other_messages := stats.other_messages + 1 }, none)
  else
    ({ stats with unknown_messages := stats.unknown_messages + 1 }, none)

/-- `Parser::parse_message` from `itch5/parser.hpp`: returns the bytes
consumed, the updated statistics, and the record (if any) the packet
handler pushes for the message.  An empty buffer, a first byte not in
the size table (`get_message_size` = 0), or a buffer shorter than the
declared size all return 0 consumed with the statistics untouched;
otherwise the per-kind switch runs, `total_messages` is bumped, and the
declared size is returned. -/
def parse_message (data : List Nat) (stats : Stats) :
    Nat × Stats × Option NormalizedMessage :=
  if data.length < 1 then (0, stats, none)
  else if get_message_size (data.getD 0 0) = 0 then (0, stats, none)
  else if data.length < get_message_size (data.getD 0 0) then
    (0, stats, none)
  else
    let r := kind_step (data.getD 0 0) data stats
    (get_message_size (data.getD 0 0),
     { r.1 with total_messages := r.1.total_messages + 1 }, r.2)

/-- The stock symbol `"MSFT    "` as its 8 ASCII bytes
(right-padded with spaces). -/
def msftStock : List Nat := [77, 83, 70, 84, 32, 32, 32, 32]

/-- Wire serialization of an `AddOrder` message
(`itch5/messages.hpp::AddOrder`, packed layout). -/
def build_add_order (stock_locate tracking ts r : Nat) (s : Side)
    (shares : Nat) (stock : List Nat) (price : Nat) : List Nat :=
  msg_type.AddOrder ::
    (endian.be16_bytes stock_locate ++ endian.be16_bytes tracking ++
     endian.be48_bytes ts ++ endian.be64_bytes r ++
     (Side.toByte s :: (endian.be32_bytes shares ++ stock ++
      endian.be32_bytes price)))

end itch5

namespace spsc

/-- The state of `RingBuffer<T, Capacity>` from `spsc/ring_buffer.hpp`:
the storage array, the producer index `head` and the consumer index
`tail` (atomics; the sequential shallow embedding keeps them as plain
naturals, which is exact for the single-threaded properties proved
here). -/
structure RingBuffer (α : Type) where
  capacity : Nat
  buffer : List α
  head : Nat
  tail : Nat
deriving DecidableEq, Repr

/-- The `RingBuffer` constructor: zero-initialized storage,
`head = tail = 0`. -/
def RingBuffer.init (α : Type) [Inhabited α] (capacity : Nat) :
    RingBuffer α :=
  { capacity := capacity
    buffer := List.replicate capacity default
    head := 0
    tail := 0 }

/-- `RingBuffer::increment`: `(index + 1) & (Capacity - 1)`. -/
def increment (capacity index : Nat) : Nat :=
  (index + 1) &&& (capacity - 1)

/-- `RingBuffer::try_push`: fail (state untouched) when advancing the
head would meet the tail, otherwise write the item at `head` and
advance `head`. -/
def try_push {α : Type} (r : RingBuffer α) (item : α) :
    RingBuffer α × Bool :=
  if increment r.capacity r.head = r.tail then (r, false)
  else
    ({ r with
        buffer := r.buffer.set r.head item
        head := increment r.capacity r.head }, true)

/-- `RingBuffer::try_pop`: fail (state untouched) when `tail = head`,
otherwise read the item at `tail` and advance `tail`. -/
def try_pop {α : Type} [Inhabited α] (r : RingBuffer α) :
    RingBuffer α × Option α :=
  if r.tail = r.head then (r, none)
  else
    ({ r with tail := increment r.capacity r.tail },
     some (r.buffer.getD r.tail default))

/-- `RingBuffer::size`: `head - tail`, wrapped over the capacity. -/
def size {α : Type} (r : RingBuffer α) : Nat :=
  if r.tail ≤ r.head then r.head - r.tail
  else r.capacity - r.tail + r.head

/-- `RingBuffer::empty`. -/
def empty {α : Type} (r : RingBuffer α) : Bool := r.head = r.tail

/-- `RingBuffer::full`. -/
def full {α : Type} (r : RingBuffer α) : Bool :=
  increment r.capacity r.head = r.tail

/-- Ring states reachable from the freshly constructed ring by any
sequence of `try_push` / `try_pop` calls. -/
inductive RingReach (α : Type) [Inhabited α] (capacity : Nat) :
    RingBuffer α → Prop where
  | init : RingReach α capacity (RingBuffer.init α capacity)
  | push (r : RingBuffer α) (x : α) :
      RingReach α capacity r → RingReach α capacity (try_push r x).1
  | pop (r : RingBuffer α) :
      RingReach α capacity r → RingReach α capacity (try_pop r).1

theorem increment_lt (capacity index : Nat) (h : 0 < capacity) :
    increment capacity index < capacity := by
  have hle : increment capacity index ≤ capacity - 1 :=
    Nat.and_le_right
  omega

/-- For a power-of-two capacity the mask is an exact modulus. -/
theorem increment_pow_two (k index : Nat) :
    increment (2^k) index = (index + 1) % 2^k := by
  rw [increment, Nat.and_pow_two_sub_one_eq_mod]

/-- `n` consecutive `try_push` calls of the same value; the boolean is
true when every call succeeded. -/
def push_iter {α : Type} (v : α) : Nat → RingBuffer α → RingBuffer α × Bool
  | 0, r => (r, true)
  | n + 1, r =>
    ((push_iter v n (try_push r v).1).1,
     (try_push r v).2 && (push_iter v n (try_push r v).1).2)

/-- Pushing `j` items into a power-of-two ring whose head is at least
`j` slots away from wrapping onto the tail succeeds throughout and
advances the head by `j`. -/
theorem push_iter_ok {α : Type} (k : Nat) (v : α) (j : Nat)
    (r : RingBuffer α) (hcap : r.capacity = 2^k) (htail : r.tail = 0)
    (hj : r.head + j ≤ 2^k - 1) :
    (push_iter v j r).2 = true ∧
    (push_iter v j r).1.head = r.head + j ∧
    (push_iter v j r).1.tail = 0 ∧
    (push_iter v j r).1.capacity = 2^k := by
  induction j generalizing r with
  | zero => exact ⟨rfl, rfl, htail, hcap⟩
  | succ n ih =>
    have hpow : 0 < 2^k := Nat.two_pow_pos k
    have hpush : try_push r v =
        ({ r with buffer := r.buffer.set r.head v,
                  head := r.head + 1 }, true) := by
      unfold try_push
      have hinc : increment r.capacity r.head = r.head + 1 := by
        rw [hcap, increment_pow_two]
        exact Nat.mod_eq_of_lt (by omega)
      rw [hinc, if_neg (by rw [htail]; omega)]
    have hstep := ih { r with buffer := r.buffer.set r.head v,
                              head := r.head + 1 }
      hcap htail (by dsimp only; omega)
    rw [push_iter, hpush]
    dsimp only
    refine ⟨by rw [hstep.1]; rfl, ?_, hstep.2.2.1, hstep.2.2.2⟩
    rw [hstep.2.1]
    dsimp only
    omega

/-- Reachable ring states keep the capacity and keep both indices below
it. -/
theorem ring_reach_bounds {α : Type} [Inhabited α] (N : Nat) (hN : 0 < N)
    (r : RingBuffer α) (h : RingReach α N r) :
    r.capacity = N ∧ r.head < N ∧ r.tail < N := by
  induction h with
  | init => exact ⟨rfl, hN, hN⟩
  | push r' x _ ih =>
    by_cases hc : increment r'.capacity r'.head = r'.tail
    · rw [try_push, if_pos hc]
      exact ih
    · rw [try_push, if_neg hc]
      refine ⟨ih.1, ?_, ih.2.2⟩
      show increment r'.capacity r'.head < N
      rw [ih.1]
      exact increment_lt N r'.head hN
  | pop r' _ ih =>
    by_cases hc : r'.tail = r'.head
    · rw [try_pop, if_pos hc]
      exact ih
    · rw [try_pop, if_neg hc]
      refine ⟨ih.1, ih.2.1, ?_⟩
      show increment r'.capacity r'.tail < N
      rw [ih.1]
      exact increment_lt N r'.tail hN

end spsc

end hft

open hft hft.moldudp64 hft.itch5 hft.spsc

/-- C2: for every message-kind code `K` in the kind table with declared
exact size `S`, `parse_message` on a buffer starting with `K` consumes
`S` bytes when the buffer holds at least `S` bytes, and consumes 0
bytes leaving every statistics counter unchanged when the buffer is
shorter than `S` (but non-empty). -/
theorem C2_kind_table_sizes (K S : Nat) (long short : List Nat)
    (stats1 stats2 : Stats) (hS : get_message_size K = S) (hpos : 0 < S)
    (hlong : S ≤ (K :: long).length) (hshort : (K :: short).length < S) :
    (parse_message (K :: long) stats1).1 = S ∧
    parse_message (K :: short) stats2 = (0, stats2, none) := by
  constructor
  · unfold parse_message
    rw [List.getD_cons_zero, hS,
      if_neg (by simp), if_neg (by omega), if_neg (by omega)]
  · unfold parse_message
    rw [List.getD_cons_zero, hS,
      if_neg (by simp), if_neg (by omega), if_pos (by omega)]

/-- Witness for C2 at kind `'A'` (AddOrder, size 36): a 41-byte buffer
consumes 36 bytes, a 1-byte buffer consumes 0 and changes nothing. -/
theorem C2_kind_table_sizes_witness :
    (parse_message (65 :: List.replicate 40 0) Stats.init).1 = 36 ∧
    parse_message (65 :: ([] : List Nat)) Stats.init =
      (0, Stats.init, none) :=
  C2_kind_table_sizes 65 36 (List.replicate 40 0) [] Stats.init Stats.init
    (by decide) (by decide) (by decide) (by decide)

/-- C7 (against the code as written): a buffer whose first byte is not
in the kind table makes `parse_message` return 0 consumed with the
statistics — including `unknown_messages` — left unchanged: the
early return on `get_message_size = 0` makes the `default:` branch of
the switch (the only place `unknown_messages` is incremented)
unreachable. -/
theorem C7_unknown_kind_not_counted (K : Nat) (rest : List Nat)
    (stats : Stats) (hK : get_message_size K = 0) :
    parse_message (K :: rest) stats = (0, stats, none) := by
  unfold parse_message
  rw [List.getD_cons_zero, hK, if_neg (by simp), if_pos rfl]

/-- Witness for C7 at the unknown code `'Z'` (0x5A). -/
theorem C7_unknown_kind_not_counted_witness :
    parse_message [90] Stats.init = (0, Stats.init, none) :=
  C7_unknown_kind_not_counted 90 [] Stats.init (by decide)

/-- Walking a buffer forward: a drop at `m` that exposes `l₁ ++ rest`
gives a drop at `m + l₁.length` exposing `rest`. -/
theorem drop_chain {α : Type} (x rest l₁ : List α) (m : Nat)
    (h : x.drop m = l₁ ++ rest) : x.drop (m + l₁.length) = rest := by
  rw [← List.drop_drop, h, List.drop_left]

/-- Offset arithmetic form of `drop_chain`, with the segment length and
the resulting offset supplied as numerals. -/
theorem drop_chain_at {α : Type} (x rest l₁ : List α) (m n k : Nat)
    (hl : l₁.length = n) (hk : m + n = k) (h : x.drop m = l₁ ++ rest) :
    x.drop k = rest := by
  subst hk
  rw [← hl]
  exact drop_chain x rest l₁ m h

theorem getD_eq_getD_drop {α : Type} (x : List α) (n : Nat) (d : α) :
    x.getD n d = (x.drop n).getD 0 d := by
  induction n generalizing x with
  | zero => rw [List.drop_zero]
  | succ m ih =>
    cases x with
    | nil => simp [List.getD]
    | cons b t => rw [List.drop_succ_cons, List.getD_cons_succ, ih]

/-- The byte at offset `n` is the head of the drop at `n`. -/
theorem getD_drop_head {α : Type} (x : List α) (n : Nat) (a d : α)
    (rest : List α) (h : x.drop n = a :: rest) : x.getD n d = a := by
  rw [getD_eq_getD_drop, h, List.getD_cons_zero]

/-- C9: an `AddOrder` wire message built from order reference `r`,
side `s`, quantity `q`, stock `"MSFT    "` and wire price `p` round
trips through `parse_message`: 36 bytes consumed and the emitted
normalized record carries `r`, `s`, `q`, the stock bytes unchanged and
the price lifted to the internal scale (`p · 100` as a signed value). -/
theorem C9_add_order_round_trip (sl tn ts r p q : Nat) (s : hft.Side)
    (stats : Stats) (hr : r < 2^64) (hp : p < 2^32) (hq : q < 2^32)
    (hts : ts < 2^48) :
    (parse_message (build_add_order sl tn ts r s q msftStock p) stats).1
      = 36 ∧
    (parse_message (build_add_order sl tn ts r s q msftStock p)
        stats).2.2 =
      some { type := hft.MessageType.AddOrder
             timestamp := ts
             order_ref := r
             stock := msftStock
             side := s
             price := (p : Int) * 100
             quantity := q } := by
  have hlen : (build_add_order sl tn ts r s q msftStock p).length = 36 := by
    simp [build_add_order, hft.endian.be16_bytes, hft.endian.be48_bytes,
      hft.endian.be64_bytes, hft.endian.be32_bytes, msftStock]
  have h1 : (build_add_order sl tn ts r s q msftStock p).drop 1 =
      hft.endian.be16_bytes sl ++ (hft.endian.be16_bytes tn ++
      (hft.endian.be48_bytes ts ++ (hft.endian.be64_bytes r ++
      (hft.Side.toByte s :: (hft.endian.be32_bytes q ++
      (msftStock ++ hft.endian.be32_bytes p)))))) := by
    rw [build_add_order]
    rfl
  have h3 := drop_chain_at _ _ (hft.endian.be16_bytes sl) 1 2 3 rfl rfl h1
  have h5 := drop_chain_at _ _ (hft.endian.be16_bytes tn) 3 2 5 rfl rfl h3
  have h11 := drop_chain_at _ _ (hft.endian.be48_bytes ts) 5 6 11 rfl rfl h5
  have h19 := drop_chain_at _ _ (hft.endian.be64_bytes r) 11 8 19 rfl rfl h11
  have h20 := drop_chain_at _
    (hft.endian.be32_bytes q ++ (msftStock ++ hft.endian.be32_bytes p))
    [hft.Side.toByte s] 19 1 20 rfl rfl h19
  have h24 := drop_chain_at _ _ (hft.endian.be32_bytes q) 20 4 24 rfl rfl h20
  have h32 := drop_chain_at _ _ msftStock 24 8 32 rfl rfl h24
  have hts' : hft.endian.read_be48
      ((build_add_order sl tn ts r s q msftStock p).drop 5) = ts := by
    rw [h5, hft.endian.read_be48_bytes ts _ hts]
  have hr' : hft.endian.read_be64
      ((build_add_order sl tn ts r s q msftStock p).drop 11) = r := by
    rw [h11, hft.endian.read_be64_bytes r _ hr]
  have hside : (build_add_order sl tn ts r s q msftStock p).getD 19 0 =
      hft.Side.toByte s := getD_drop_head _ 19 _ 0 _ h19
  have hq' : hft.endian.read_be32
      ((build_add_order sl tn ts r s q msftStock p).drop 20) = q := by
    rw [h20, hft.endian.read_be32_bytes q _ hq]
  have hstock : ((build_add_order sl tn ts r s q msftStock p).drop
      24).take 8 = msftStock := by
    rw [h24, show (8 : Nat) = (msftStock).length from rfl, List.take_left]
  have hp' : hft.endian.read_be32
      ((build_add_order sl tn ts r s q msftStock p).drop 32) = p := by
    have := hft.endian.read_be32_bytes p [] hp
    rw [List.append_nil] at this
    rw [h32, this]
  have hnorm : normalize_add_order
      (build_add_order sl tn ts r s q msftStock p) =
      { type := hft.MessageType.AddOrder
        timestamp := ts
        order_ref := r
        stock := msftStock
        side := s
        price := (p : Int) * 100
        quantity := q } := by
    unfold normalize_add_order
    rw [hts', hr', hside, hq', hstock, hp']
    cases s <;> rfl
  have hfront : (build_add_order sl tn ts r s q msftStock p).getD 0 0 =
      msg_type.AddOrder := List.getD_cons_zero
  constructor
  · unfold parse_message
    rw [hfront, show get_message_size msg_type.AddOrder = 36 from rfl,
      if_neg (by rw [hlen]; omega), if_neg (by omega),
      if_neg (by rw [hlen]; omega)]
  · unfold parse_message
    rw [hfront, show get_message_size msg_type.AddOrder = 36 from rfl,
      if_neg (by rw [hlen]; omega), if_neg (by omega),
      if_neg (by rw [hlen]; omega)]
    show (kind_step msg_type.AddOrder
      (build_add_order sl tn ts r s q msftStock p) stats).2 = _
    unfold kind_step
    rw [if_pos rfl, hnorm]

/-- Witness for C9 at `r = 123456789`, side Buy, `p = 1500000`,
`q = 100`, `ts = 34200000000000`. -/
theorem C9_add_order_round_trip_witness :
    (parse_message (build_add_order 7 9 34200000000000 123456789
        hft.Side.Buy 100 msftStock 1500000) Stats.init).1 = 36 ∧
    (parse_message (build_add_order 7 9 34200000000000 123456789
        hft.Side.Buy 100 msftStock 1500000) Stats.init).2.2 =
      some { type := hft.MessageType.AddOrder
             timestamp := 34200000000000
             order_ref := 123456789
             stock := msftStock
             side := hft.Side.Buy
             price := (1500000 : Int) * 100
             quantity := 100 } :=
  C9_add_order_round_trip 7 9 34200000000000 123456789 1500000 100
    hft.Side.Buy Stats.init (by decide) (by decide) (by decide) (by decide)

/-- C5: on an empty power-of-two ring of capacity `N = 2^k`, `N − 1`
consecutive `try_push` calls all succeed, the next `try_push` fails,
after one successful `try_pop` the next `try_push` succeeds again, and
every reachable ring state holds at most `N − 1` live records. -/
theorem C5_ring_fullness (k : Nat) (hk : 1 ≤ k) (r : RingBuffer Nat)
    (hr : RingReach Nat (2^k) r) :
    (push_iter 0 (2^k - 1) (RingBuffer.init Nat (2^k))).2 = true ∧
    (try_push (push_iter 0 (2^k - 1)
      (RingBuffer.init Nat (2^k))).1 0).2 = false ∧
    (try_pop (push_iter 0 (2^k - 1)
      (RingBuffer.init Nat (2^k))).1).2.isSome = true ∧
    (try_push (try_pop (push_iter 0 (2^k - 1)
      (RingBuffer.init Nat (2^k))).1).1 0).2 = true ∧
    size r ≤ 2^k - 1 := by
  have hpow : 0 < 2^k := Nat.two_pow_pos k
  have h2 : 2 ≤ 2^k := by
    calc 2 = 2^1 := rfl
    _ ≤ 2^k := Nat.pow_le_pow_right (by omega) hk
  obtain ⟨hsucc, hhead, htail, hcap⟩ :=
    push_iter_ok k 0 (2^k - 1) (RingBuffer.init Nat (2^k)) rfl rfl
      (by show 0 + (2^k - 1) ≤ 2^k - 1; omega)
  refine ⟨hsucc, ?_, ?_, ?_, ?_⟩
  · have hfull : increment
        (push_iter 0 (2^k - 1) (RingBuffer.init Nat (2^k))).1.capacity
        (push_iter 0 (2^k - 1) (RingBuffer.init Nat (2^k))).1.head =
        (push_iter 0 (2^k - 1) (RingBuffer.init Nat (2^k))).1.tail := by
      rw [hcap, hhead, htail, increment_pow_two,
        show (RingBuffer.init Nat (2^k)).head + (2^k - 1) + 1 = 2^k by
          show 0 + (2^k - 1) + 1 = 2^k
          omega,
        Nat.mod_self]
    rw [try_push, if_pos hfull]
  · have hne : (push_iter 0 (2^k - 1)
        (RingBuffer.init Nat (2^k))).1.tail ≠
        (push_iter 0 (2^k - 1) (RingBuffer.init Nat (2^k))).1.head := by
      rw [htail, hhead]
      show (0 : Nat) ≠ 0 + (2^k - 1)
      omega
    rw [try_pop, if_neg hne]
    rfl
  · have hne : (push_iter 0 (2^k - 1)
        (RingBuffer.init Nat (2^k))).1.tail ≠
        (push_iter 0 (2^k - 1) (RingBuffer.init Nat (2^k))).1.head := by
      rw [htail, hhead]
      show (0 : Nat) ≠ 0 + (2^k - 1)
      omega
    rw [try_pop, if_neg hne]
    dsimp only
    rw [try_push]
    rw [if_neg (by
      show increment (push_iter 0 (2^k - 1)
          (RingBuffer.init Nat (2^k))).1.capacity
        (push_iter 0 (2^k - 1) (RingBuffer.init Nat (2^k))).1.head ≠
        increment (push_iter 0 (2^k - 1)
          (RingBuffer.init Nat (2^k))).1.capacity
        (push_iter 0 (2^k - 1) (RingBuffer.init Nat (2^k))).1.tail
      rw [hcap, hhead, htail, increment_pow_two, increment_pow_two,
        show (RingBuffer.init Nat (2^k)).head + (2^k - 1) + 1 = 2^k by
          show 0 + (2^k - 1) + 1 = 2^k
          omega,
        Nat.mod_self, Nat.mod_eq_of_lt (by omega)]
      omega)]
  · obtain ⟨hc, hh, ht⟩ := ring_reach_bounds (2^k) hpow r hr
    unfold size
    split <;> omega

/-- Witness for C5 at `k = 3` (capacity 8), with the empty ring as the
reachable state. -/
theorem C5_ring_fullness_witness :
    (push_iter 0 (2^3 - 1) (RingBuffer.init Nat (2^3))).2 = true ∧
    (try_push (push_iter 0 (2^3 - 1)
      (RingBuffer.init Nat (2^3))).1 0).2 = false ∧
    (try_pop (push_iter 0 (2^3 - 1)
      (RingBuffer.init Nat (2^3))).1).2.isSome = true ∧
    (try_push (try_pop (push_iter 0 (2^3 - 1)
      (RingBuffer.init Nat (2^3))).1).1 0).2 = true ∧
    size (RingBuffer.init Nat (2^3)) ≤ 2^3 - 1 :=
  C5_ring_fullness 3 (by decide) (RingBuffer.init Nat (2^3))
    RingReach.init

/-- C8 (against the code as written): a heartbeat is NOT a pure frame
effect in every state — as the first packet (state `Unknown`) it adopts
the session id and moves the state to `Active`, and with a mismatched
session id it moves an `Active` session to `Error` without touching the
heartbeat counter. -/
theorem C8_counterexample :
    (process_packet Session.init (mkPacket sidA 0 0 [])).1.state ≠
      Session.init.state ∧
    (process_packet sActive (mkPacket sidB 0 0 [])).1.state ≠
      sActive.state ∧
    (process_packet sActive (mkPacket sidB 0 0 [])).1.heartbeats_received
      = sActive.heartbeats_received := by
  decide

/-- C8 amended: in every state other than `Unknown`, a heartbeat packet
carrying the adopted session id leaves the state, `expected_sequence`
and the pending gap list unchanged and increments `heartbeats_received`
by exactly one. -/
theorem C8_heartbeat_frame_effect (s : Session) (sid : List Nat)
    (h10 : sid.length = 10) (hstate : s.state ≠ SessionState.Unknown)
    (hsid : s.session_id = sid) :
    (process_packet s (mkPacket sid 0 0 [])).1.state = s.state ∧
    (process_packet s (mkPacket sid 0 0 [])).1.expected_sequence =
      s.expected_sequence ∧
    (process_packet s (mkPacket sid 0 0 [])).1.pending_gaps =
      s.pending_gaps ∧
    (process_packet s (mkPacket sid 0 0 [])).1.heartbeats_received =
      s.heartbeats_received + 1 := by
  have hparse := parse_mkPacket sid 0 0 [] h10 (by omega) (by omega)
  rw [process_packet_match s _ _ hparse hstate (by rw [hsid]),
    process_body_heartbeat _ _ _ rfl rfl]
  exact ⟨rfl, rfl, rfl, rfl⟩

/-- Witness for the amended C8 at the concrete `Active` session. -/
theorem C8_heartbeat_frame_effect_witness :
    (process_packet sActive (mkPacket sidA 0 0 [])).1.state =
      sActive.state ∧
    (process_packet sActive (mkPacket sidA 0 0 [])).1.expected_sequence =
      sActive.expected_sequence ∧
    (process_packet sActive (mkPacket sidA 0 0 [])).1.pending_gaps =
      sActive.pending_gaps ∧
    (process_packet sActive (mkPacket sidA 0 0 [])).1.heartbeats_received
      = sActive.heartbeats_received + 1 :=
  C8_heartbeat_frame_effect sActive sidA (by decide) (by decide)
    (by decide)

/-- C4 (against the code as written): `EndOfSession` is not terminal —
a later matching-session packet with a sequence above the expected one
moves the reachable `EndOfSession` state to `Stale`. -/
theorem C4_counterexample :
    Reachable sEOS ∧ sEOS.state = SessionState.EndOfSession ∧
    (process_packet sEOS (mkPacket sidA 5 0 [])).1.state =
      SessionState.Stale := by
  refine ⟨?_, by decide, by decide⟩
  exact Reachable.step _ _ (Reachable.step _ _ Reachable.init)

/-- C4 amended: from `EndOfSession` or `Error`, `process_packet` never
returns the session to `Active` or `Unknown`: the resulting state is
`EndOfSession`, `Error`, or `Stale` (the last when a matching-session
data packet with a sequence above the expected one arrives). -/
theorem C4_no_revival (s : Session) (data : List Nat)
    (h : s.state = SessionState.EndOfSession ∨
      s.state = SessionState.Error) :
    (process_packet s data).1.state = SessionState.EndOfSession ∨
    (process_packet s data).1.state = SessionState.Error ∨
    (process_packet s data).1.state = SessionState.Stale := by
  cases hp : HeaderParser.parse data with
  | none =>
    rw [process_packet_none s data hp]
    rcases h with h | h
    · exact Or.inl h
    · exact Or.inr (Or.inl h)
  | some header =>
    have hu : s.state ≠ SessionState.Unknown := by
      rcases h with h | h <;> rw [h] <;>
        exact fun hc => SessionState.noConfusion hc
    by_cases hsid : s.session_id = header.session
    · rw [process_packet_match s data header hp hu hsid]
      apply process_body_state_terminal
      rcases h with h | h
      · exact Or.inl h
      · exact Or.inr h
    · rw [process_packet_mismatch s data header hp hu hsid]
      exact Or.inr (Or.inl rfl)

/-- Witness for the amended C4 at the concrete `EndOfSession` state. -/
theorem C4_no_revival_witness :
    (process_packet sEOS (mkPacket sidA 5 0 [])).1.state =
      SessionState.EndOfSession ∨
    (process_packet sEOS (mkPacket sidA 5 0 [])).1.state =
      SessionState.Error ∨
    (process_packet sEOS (mkPacket sidA 5 0 [])).1.state =
      SessionState.Stale :=
  C4_no_revival sEOS (mkPacket sidA 5 0 []) (Or.inl (by decide))

/-- C3 (against the code as written): a reachable state can hold
pending gaps while the state is not `Stale` — an end-of-session packet
received while `Stale` keeps the non-empty gap list but sets the state
to `EndOfSession`. -/
theorem C3_counterexample :
    Reachable sStaleEOS ∧ Session.has_gaps sStaleEOS = true ∧
    sStaleEOS.state ≠ SessionState.Stale := by
  refine ⟨?_, by decide, by decide⟩
  exact Reachable.step _ _ (Reachable.step _ _
    (Reachable.step _ _ Reachable.init))

/-- C3 amended: in every reachable state, `has_gaps()` is true exactly
when the pending gap list is non-empty; `Unknown` and `Active` states
carry no pending gaps and a `Stale` state carries at least one — but a
non-empty list no longer implies `Stale`, since `EndOfSession` and
`Error` can retain pending gaps. -/
theorem C3_gap_invariant (s : Session) (h : Reachable s) :
    (Session.has_gaps s = true ↔ s.pending_gaps ≠ []) ∧
    ((s.state = SessionState.Unknown ∨ s.state = SessionState.Active) →
      s.pending_gaps = []) ∧
    (s.state = SessionState.Stale → s.pending_gaps ≠ []) := by
  have hinv := gap_inv_reachable s h
  refine ⟨?_, hinv.1, hinv.2⟩
  rw [Session.has_gaps]
  simp [List.isEmpty_iff]

/-- Witness for the amended C3 at the fresh session. -/
theorem C3_gap_invariant_witness :
    (Session.has_gaps Session.init = true ↔
      Session.init.pending_gaps ≠ []) ∧
    ((Session.init.state = SessionState.Unknown ∨
      Session.init.state = SessionState.Active) →
      Session.init.pending_gaps = []) ∧
    (Session.init.state = SessionState.Stale →
      Session.init.pending_gaps ≠ []) :=
  C3_gap_invariant Session.init Reachable.init

/-- C6 (against the code as written): an in-order packet declaring 2
messages but containing only 1 complete block dispatches exactly 1
message yet advances `expected_sequence` by the declared count 2 (to 3),
not by the 1 message actually dispatched (which would give 2). -/
theorem C6_counterexample :
    (process_packet Session.init
      (mkPacket sidA 1 2 [[1, 2, 3]])).2.2.length = 1 ∧
    (process_packet Session.init
      (mkPacket sidA 1 2 [[1, 2, 3]])).1.expected_sequence = 3 ∧
    (process_packet Session.init
      (mkPacket sidA 1 2 [[1, 2, 3]])).1.expected_sequence ≠ 2 := by
  decide

/-- C6 amended: an in-order packet with declared count `N` of which
only `k < N` blocks are contained dispatches exactly those `k` blocks
in wire order, but advances `expected_sequence` by the declared count
`N`, not by `k`. -/
theorem C6_truncated_dispatch (s : Session) (sid : List Nat)
    (blocks : List (List Nat)) (N : Nat) (h10 : sid.length = 10)
    (hstate : s.state ≠ SessionState.Unknown) (hsid : s.session_id = sid)
    (hk : blocks.length < N) (hN : N < 2^16)
    (hb : ∀ b ∈ blocks, b.length < 2^16)
    (hpos : 0 < s.expected_sequence)
    (hbound : s.expected_sequence + N < 2^64) :
    (process_packet s (mkPacket sid s.expected_sequence N blocks)).2.2 =
      dispatched blocks s.expected_sequence ∧
    (process_packet s
      (mkPacket sid s.expected_sequence N blocks)).1.expected_sequence =
      s.expected_sequence + N := by
  have hparse := parse_mkPacket sid s.expected_sequence N blocks h10
    (by omega) hN
  rw [process_packet_match s _ _ hparse hstate (by rw [hsid]),
    process_body_in_order
      { s with packets_received := s.packets_received + 1 }
      sid blocks s.expected_sequence N h10 rfl hN
      (by omega) hb hpos (by omega) hbound]
  refine ⟨rfl, ?_⟩
  dsimp only
  rw [stale_check_expected]

/-- Witness for the amended C6: the truncated packet of the
counterexample, fed to the concrete `Active` session. -/
theorem C6_truncated_dispatch_witness :
    (process_packet sActive
      (mkPacket sidA sActive.expected_sequence 2 [[1, 2, 3]])).2.2 =
      dispatched [[1, 2, 3]] sActive.expected_sequence ∧
    (process_packet sActive
      (mkPacket sidA sActive.expected_sequence 2
        [[1, 2, 3]])).1.expected_sequence =
      sActive.expected_sequence + 2 :=
  C6_truncated_dispatch sActive sidA [[1, 2, 3]] 2 (by decide)
    (by decide) (by decide) (by decide) (by decide) (by decide)
    (by decide) (by decide)

/-- C1: from a fresh decoder, a well-formed packet `(seq = 1,
count = c1 > 0)` followed by a same-session packet
`(seq = c1 + g + 1, count = c2)` with `g ≥ 1` yields exactly one
pending gap `[c1 + 1, c1 + g]`, reported once through the gap callback
before the second packet's messages; the state is `Stale`, all `c2`
messages of the second packet are dispatched in wire order, and
`expected_sequence` ends at `c1 + g + 1 + c2`. -/
theorem C1_gap_detection (sid : List Nat)
    (blocks1 blocks2 : List (List Nat)) (c1 g c2 : Nat)
    (h10 : sid.length = 10)
    (hb1 : ∀ b ∈ blocks1, b.length < 2^16)
    (hb2 : ∀ b ∈ blocks2, b.length < 2^16)
    (hc1 : blocks1.length = c1) (hc2 : blocks2.length = c2)
    (hpos : 0 < c1) (hc1w : c1 < 2^16) (hc2w : c2 < 2^16) (hg : 1 ≤ g)
    (hseq : c1 + g + 1 < 2^64 - 1) (hbound : c1 + g + 1 + c2 < 2^64) :
    (process_packet
      (process_packet Session.init (mkPacket sid 1 c1 blocks1)).1
      (mkPacket sid (c1 + g + 1) c2 blocks2)).1.pending_gaps =
      [{ start := c1 + 1, end_ := c1 + g, detected_at_ns := 0 }] ∧
    (process_packet
      (process_packet Session.init (mkPacket sid 1 c1 blocks1)).1
      (mkPacket sid (c1 + g + 1) c2 blocks2)).1.gaps_detected = 1 ∧
    (process_packet
      (process_packet Session.init (mkPacket sid 1 c1 blocks1)).1
      (mkPacket sid (c1 + g + 1) c2 blocks2)).1.state =
      SessionState.Stale ∧
    (process_packet
      (process_packet Session.init (mkPacket sid 1 c1 blocks1)).1
      (mkPacket sid (c1 + g + 1) c2 blocks2)).1.expected_sequence =
      c1 + g + 1 + c2 ∧
    (process_packet
      (process_packet Session.init (mkPacket sid 1 c1 blocks1)).1
      (mkPacket sid (c1 + g + 1) c2 blocks2)).2.2 =
      Event.gap { start := c1 + 1, end_ := c1 + g, detected_at_ns := 0 }
        :: dispatched blocks2 (c1 + g + 1) := by
  have hparse1 := parse_mkPacket sid 1 c1 blocks1 h10 (by omega) hc1w
  have hs1 : process_packet Session.init (mkPacket sid 1 c1 blocks1) =
      ({ session_id := sid, expected_sequence := 1 + c1,
         state := SessionState.Active, pending_gaps := [],
         packets_received := 1,
         messages_received := 0 + blocks1.length,
         gaps_detected := 0, heartbeats_received := 0 }, true,
       dispatched blocks1 1) := by
    rw [process_packet_adopt Session.init _ _ hparse1 rfl,
      process_body_in_order _ sid blocks1 1 c1 h10 rfl hc1w
        (by omega) hb1 (by omega) (by omega) (by omega),
      stale_check_of_state_ne _ (fun hc => SessionState.noConfusion hc)]
    rfl
  have hparse2 := parse_mkPacket sid (c1 + g + 1) c2 blocks2 h10
    (by omega) hc2w
  have hs2 : process_packet
      (process_packet Session.init (mkPacket sid 1 c1 blocks1)).1
      (mkPacket sid (c1 + g + 1) c2 blocks2) =
      ({ session_id := sid, expected_sequence := c1 + g + 1 + c2,
         state := SessionState.Stale,
         pending_gaps := [{ start := 1 + c1, end_ := c1 + g + 1 - 1,
                            detected_at_ns := 0 }],
         packets_received := 2,
         messages_received := 0 + blocks1.length + blocks2.length,
         gaps_detected := 1, heartbeats_received := 0 }, true,
       Event.gap { start := 1 + c1, end_ := c1 + g + 1 - 1,
                   detected_at_ns := 0 } :: dispatched blocks2 (c1 + g + 1)) := by
    rw [hs1]
    dsimp only
    rw [process_packet_match _ _ _ hparse2
        (fun hc => SessionState.noConfusion hc) rfl,
      process_body_gap _ sid blocks2 (c1 + g + 1) c2 h10 hc2w
        (by omega) hb2
        (by show 1 + c1 < c1 + g + 1; omega)
        (by show c1 + g + 1 < 2^64 - 1; omega) (by omega)]
    rfl
  rw [hs2]
  refine ⟨?_, rfl, rfl, rfl, ?_⟩
  · simp only [List.cons.injEq, Gap.mk.injEq, and_true]
    omega
  · simp only [List.cons.injEq, Event.gap.injEq, Gap.mk.injEq]
    refine ⟨⟨by omega, by omega, trivial⟩, trivial⟩

/-- Witness for C1 at `c1 = 1`, `g = 1`, `c2 = 1` with one-byte message
blocks. -/
theorem C1_gap_detection_witness :
    (process_packet
      (process_packet Session.init (mkPacket sidA 1 1 [[1]])).1
      (mkPacket sidA 3 1 [[2]])).1.pending_gaps =
      [{ start := 2, end_ := 2, detected_at_ns := 0 }] ∧
    (process_packet
      (process_packet Session.init (mkPacket sidA 1 1 [[1]])).1
      (mkPacket sidA 3 1 [[2]])).1.gaps_detected = 1 ∧
    (process_packet
      (process_packet Session.init (mkPacket sidA 1 1 [[1]])).1
      (mkPacket sidA 3 1 [[2]])).1.state = SessionState.Stale ∧
    (process_packet
      (process_packet Session.init (mkPacket sidA 1 1 [[1]])).1
      (mkPacket sidA 3 1 [[2]])).1.expected_sequence = 4 ∧
    (process_packet
      (process_packet Session.init (mkPacket sidA 1 1 [[1]])).1
      (mkPacket sidA 3 1 [[2]])).2.2 =
      Event.gap { start := 2, end_ := 2, detected_at_ns := 0 }
        :: dispatched [[2]] 3 :=
  C1_gap_detection sidA [[1]] [[2]] 1 1 1 (by decide) (by decide)
    (by decide) rfl rfl (by decide) (by decide) (by decide) (by decide)
    (by decide) (by decide)

/-- C10: a `try_push` that fails (ring full) and a `try_pop` that fails
(ring empty) leave the ring — capacity, buffer, head and tail — exactly
as it was. -/
theorem C10_failed_ops_atomic (r₁ r₂ : RingBuffer Nat) (v : Nat)
    (h1 : (try_push r₁ v).2 = false) (h2 : (try_pop r₂).2 = none) :
    (try_push r₁ v).1 = r₁ ∧ (try_pop r₂).1 = r₂ := by
  constructor
  · by_cases hc : increment r₁.capacity r₁.head = r₁.tail
    · rw [try_push, if_pos hc]
    · rw [try_push, if_neg hc] at h1
      simp at h1
  · by_cases hc : r₂.tail = r₂.head
    · rw [try_pop, if_pos hc]
    · rw [try_pop, if_neg hc] at h2
      simp at h2

/-- Witness for C10: a full 2-slot ring rejects a push unchanged and an
empty 4-slot ring rejects a pop unchanged. -/
theorem C10_failed_ops_atomic_witness :
    (try_push { capacity := 2, buffer := [0, 0], head := 1, tail := 0 :
        RingBuffer Nat } 5).1 =
      { capacity := 2, buffer := [0, 0], head := 1, tail := 0 } ∧
    (try_pop (RingBuffer.init Nat 4)).1 = RingBuffer.init Nat 4 :=
  C10_failed_ops_atomic
    { capacity := 2, buffer := [0, 0], head := 1, tail := 0 }
    (RingBuffer.init Nat 4) 5 (by decide) (by decide)
